import Mathlib

/-!
# jenkins-job: trigger a Jenkins job and wait for it

A shallow embedding of `main.go`: `postJob` submits the build request and
extracts the queue location, `wait_for_start` polls the queue item until a
build number is allocated, `wait_for_complete` polls the build until it has a
terminal result, and `main` collects the `PARAMETER_*` environment entries.

Conventions of the embedding

* `die` (logrus `log.Fatal`, which exits the process) is the outcome `fatal`
  carrying the message; a Go run-time panic is the outcome `crashed`.
* The network is a function from the request to what `http.NewRequest` plus
  `client.Do` hand back (`Reply`).
* A response body is given by the value `encoding/json` decodes it to.
* The `for { select { ... } }` loops consume a list of rounds; a round records
  which of the two timer channels hold a value when `select` runs, the pick
  the Go runtime makes when both do, and the server of that moment.
* `log.Debug` and `log.Info` lines do not influence control flow and are not
  part of the modelled state.
-/

namespace JenkinsJob

/-! ## Outcomes of a Go function -/

/-- Run-time panics that the program can raise. -/
inductive Crash where
  /-- Index `index` used on a slice of length `length`. -/
  | indexOutOfRange (index length : Nat)
  /-- A type assertion `x.(T)` on an interface value of another dynamic type. -/
  | typeAssertion
  /-- A method called through a nil pointer. -/
  | nilDereference
  deriving DecidableEq, Repr

/-- How a call ends: it returns a value, it calls `die` (the process exits with
the logged message), it panics, or it is still blocked in `select` when the
supplied rounds are used up. -/
inductive Outcome (α : Type) where
  | returned (v : α)
  | fatal (msg : String)
  | crashed (c : Crash)
  | waiting
  deriving DecidableEq, Repr

/-! ## Package `strings` -/

/-- Pieces of `s` between the occurrences of the separator `sep`. -/
def splitChar (sep : Char) : List Char → List (List Char)
  | [] => [[]]
  | c :: cs =>
    if c = sep then [] :: splitChar sep cs
    else
      match splitChar sep cs with
      | [] => [[c]]
      | h :: t => (c :: h) :: t

/-- Go `strings.Split(s, sep)` for a one-character separator. -/
def Split (s : String) (sep : Char) : List String :=
  (splitChar sep s.data).map String.mk

/-- Go `strings.HasPrefix(s, p)`. -/
def startsWith (s p : String) : Bool :=
  p.data.isPrefixOf s.data

/-- Go `strings.TrimPrefix(s, p)`. -/
def trimStart (s p : String) : String :=
  if startsWith s p then String.mk (s.data.drop p.data.length) else s

/-! ## Package `net/url`: `url.Values` -/

/-- Go `url.Values`, a `map[string][]string`, as an association list with
distinct keys. -/
abbrev Values := List (String × List String)

/-- Go `Values.Add`: appends the value to the list stored under the key. -/
def Values.Add : Values → String → String → Values
  | [], key, value => [(key, [value])]
  | (k, vs) :: rest, key, value =>
    if k = key then (k, vs ++ [value]) :: rest
    else (k, vs) :: Values.Add rest key value

/-! ## Package `regexp`: the pattern `http.+queue.+` -/

/-- The regular-expression atom `.`: any character except a newline. -/
def dotChar (c : Char) : Bool := c != '\n'

/-- Anchored match of `queue.` followed by anything. -/
def queueThenDot (s : List Char) : Bool :=
  "queue".data.isPrefixOf s &&
    match s.drop 5 with
    | c :: _ => dotChar c
    | [] => false

/-- Anchored match of `.+queue.+` followed by anything. -/
def dotsQueueDots : List Char → Bool
  | [] => false
  | c :: cs => dotChar c && (queueThenDot cs || dotsQueueDots cs)

/-- Unanchored search for `http.+queue.+`. -/
def findQueuePattern : List Char → Bool
  | [] => false
  | c :: cs =>
    ("http".data.isPrefixOf (c :: cs) && dotsQueueDots (cs.drop 3)) || findQueuePattern cs

/-- Go `regexp.MatchString("http.+queue.+", loc)`: the pattern matches some
substring of `loc`. -/
def MatchString (loc : String) : Bool := findQueuePattern loc.data

/-- What it means for a text to contain a match of `http.+queue.+`: the word
`http`, one or more characters other than newline, the word `queue`, one or
more characters other than newline. -/
def QueueShaped (s : List Char) : Prop :=
  ∃ pre a b post : List Char,
    s = pre ++ ("http".data ++ (a ++ ("queue".data ++ (b ++ post)))) ∧
    a ≠ [] ∧ b ≠ [] ∧ (∀ c ∈ a, dotChar c = true) ∧ (∀ c ∈ b, dotChar c = true)

/-! ## Values decoded by `encoding/json` -/

/-- A finite `float64`, written `mant * 2 ^ exp`; in a value of the machine type
`mant` has at most 53 bits. -/
structure Float64 where
  mant : Int
  exp : Int
  deriving DecidableEq, Repr

/-- The float `f` is exactly the integer `n`. -/
def Float64.represents (f : Float64) (n : Int) : Prop :=
  if 0 ≤ f.exp then f.mant * 2 ^ f.exp.toNat = n else f.mant = n * 2 ^ (-f.exp).toNat

instance (f : Float64) (n : Int) : Decidable (f.represents n) :=
  inferInstanceAs
    (Decidable (if 0 ≤ f.exp then f.mant * 2 ^ f.exp.toNat = n else f.mant = n * 2 ^ (-f.exp).toNat))

/-- The float with its fractional part discarded (rounding toward zero). -/
def Float64.trunc (f : Float64) : Int :=
  if 0 ≤ f.exp then f.mant * 2 ^ f.exp.toNat else Int.tdiv f.mant (2 ^ (-f.exp).toNat)

/-- Go conversion `int(f)` of a `float64`, `int` being 64 bits wide: the
truncated value when it fits. Go leaves the result implementation-dependent
when it does not fit; the value produced on amd64 is used (`-2 ^ 63`). -/
def goInt (f : Float64) : Int :=
  if -2 ^ 63 ≤ f.trunc ∧ f.trunc < 2 ^ 63 then f.trunc else -2 ^ 63

/-- What `encoding/json` stores in an `interface{}`: `nil` for JSON null,
`bool`, `float64` for every number, `string`, `[]interface{}` for arrays and
`map[string]interface{}` for objects. -/
inductive GoValue where
  | nil
  | bool (b : Bool)
  | float64 (f : Float64)
  | string (s : String)
  | slice (xs : List GoValue)
  | map (kvs : List (String × GoValue))

/-- The test `v == nil` on an interface value. -/
def GoValue.isNil : GoValue → Bool
  | .nil => true
  | _ => false

/-- Index expression `m[key]` on a `map[string]interface{}`: a missing key
(and every key of the nil map) gives `nil`. -/
def index (m : List (String × GoValue)) (key : String) : GoValue :=
  (m.lookup key).getD .nil

/-- The statement `json.NewDecoder(resp.Body).Decode(&result)` for
`var result map[string]interface{}`, the returned error being discarded:
an object fills the map; null, any other JSON value and a body that is not
JSON (`none`) leave `result` the nil map. -/
def decodeObject : Option GoValue → List (String × GoValue)
  | some (.map kvs) => kvs
  | _ => []

/-! ## Package `net/http` -/

/-- The request handed to `client.Do`: method, URL, the basic-auth pair set by
`SetBasicAuth`, and the form whose encoding is the body. -/
structure Request where
  method : String
  url : String
  user : String
  token : String
  form : Values
  deriving DecidableEq, Repr

/-- The fields of `http.Response` the program reads. `Header` is the map from
canonical header name to its values; a name bound to the empty list is a
non-nil empty slice. `Body` is the first JSON value of the body as
`encoding/json` decodes it, `none` when the body is not JSON. -/
structure Response where
  StatusCode : Int
  Status : String
  Header : List (String × List String)
  Body : Option GoValue

/-- Result of `http.NewRequest` followed by `client.Do`. -/
inductive Reply where
  /-- `client.Do` returned a response and no error. -/
  | response (resp : Response)
  /-- `client.Do` returned the error `err`. -/
  | failed (err : String)
  /-- `http.NewRequest` returned a nil request; its error is overwritten before
  it is looked at, and `req.SetBasicAuth` then runs on the nil pointer. -/
  | noRequest

/-! ## `postJob` -/

/-- The URL `postJob` builds with `fmt.Sprintf`. -/
def postURL (jenkins_uri jenkins_job : String) (query_string : Values) : String :=
  if query_string.length > 0 then
    jenkins_uri ++ "/job/" ++ jenkins_job ++ "/buildWithParameters"
  else
    jenkins_uri ++ "/job/" ++ jenkins_job ++ "/build"

/-- The request `postJob` sends. -/
def postRequest (jenkins_user jenkins_token jenkins_uri jenkins_job : String)
    (query_string : Values) : Request :=
  { method := "POST", url := postURL jenkins_uri jenkins_job query_string,
    user := jenkins_user, token := jenkins_token, form := query_string }

/-- Go `postJob`: returns the queue location and the queue id. -/
def postJob (client : Request → Reply)
    (jenkins_user jenkins_token jenkins_uri jenkins_job : String)
    (query_string : Values) : Outcome (String × String) :=
  match client (postRequest jenkins_user jenkins_token jenkins_uri jenkins_job query_string) with
  | .noRequest => .crashed .nilDereference
  | .failed err => .fatal err
  | .response resp =>
    if resp.StatusCode ≠ 201 then
      .fatal ("Request returned: " ++ resp.Status)
    else
      match resp.Header.lookup "Location" with
      | none => .fatal "Request accepted but no location returned"
      | some [] => .crashed (.indexOutOfRange 0 0)
      | some (loc :: _) =>
        if !MatchString loc then
          .fatal "Request did not return a valid queue location"
        else
          let pair := Split loc '/'
          match pair[5]? with
          | some queue_id => .returned (loc, queue_id)
          | none => .crashed (.indexOutOfRange 5 pair.length)

/-! ## The polling loops -/

/-- One pass through `for { select { case <-limit: ... case <-tick: ... } }`. -/
structure Round where
  /-- A value is ready on the `limit` channel (the deadline has elapsed). -/
  limit : Bool
  /-- A value is ready on the `tick` channel. -/
  tick : Bool
  /-- With both channels ready Go picks one case pseudo-randomly; `true` when
  the pick is the `tick` case. -/
  pickTick : Bool
  /-- The server as it answers during this round. -/
  client : Request → Reply

/-- The cases of the `select` statement. -/
inductive Arm where
  | limit
  | tick
  deriving DecidableEq, Repr

/-- Go `select` over the two channels: the ready case runs; with both ready the
runtime picks; with none ready the statement stays blocked (`none`). -/
def goSelect (r : Round) : Option Arm :=
  match r.limit, r.tick with
  | true, true => some (if r.pickTick then .tick else .limit)
  | true, false => some .limit
  | false, true => some .tick
  | false, false => none

/-- The GET request of a poll. -/
def getRequest (jenkins_user jenkins_token url : String) : Request :=
  { method := "GET", url := url, user := jenkins_user, token := jenkins_token, form := [] }

/-- The loop of `wait_for_start`; `polls` counts the calls of `client.Do` so
far. Returns the outcome and the final count. -/
def startLoop (req : Request) : List Round → Nat → Outcome String × Nat
  | [], polls => (.waiting, polls)
  | r :: rest, polls =>
    match goSelect r with
    | none => startLoop req rest polls
    | some .limit => (.fatal "Timeout elapsed while waiting for job to start", polls)
    | some .tick =>
      match r.client req with
      | .noRequest => (.crashed .nilDereference, polls)
      | .failed err => (.fatal err, polls + 1)
      | .response resp =>
        let result := decodeObject resp.Body
        match index result "executable" with
        | .nil => startLoop req rest (polls + 1)
        | .map executable =>
          match index executable "number" with
          | .nil => (.fatal "Job started but job id could not be found", polls + 1)
          | .float64 j_id => (.returned (toString (goInt j_id)), polls + 1)
          | _ => (.crashed .typeAssertion, polls + 1)
        | _ => (.crashed .typeAssertion, polls + 1)

/-- Go `wait_for_start`. `Atoi` is `strconv.Atoi`; only the error of the
second call (on `interval`) is checked. The two durations only decide when the
channels become ready, which the rounds record. -/
def wait_for_start (Atoi : String → Except String Int)
    (jenkins_user jenkins_token location queue_id interval timeout : String)
    (rounds : List Round) : Outcome String × Nat :=
  match Atoi interval with
  | .error err => (.fatal err, 0)
  | .ok _ => startLoop (getRequest jenkins_user jenkins_token (location ++ "/api/json")) rounds 0

/-- The loop of `wait_for_complete`; `polls` counts the calls of `client.Do`. -/
def completeLoop (req : Request) (jenkins_job job_id : String) :
    List Round → Nat → Outcome String × Nat
  | [], polls => (.waiting, polls)
  | r :: rest, polls =>
    match goSelect r with
    | none => completeLoop req jenkins_job job_id rest polls
    | some .limit => (.fatal "Timeout elapsed while waiting for job to finish", polls)
    | some .tick =>
      match r.client req with
      | .noRequest => (.crashed .nilDereference, polls)
      | .failed err => (.fatal err, polls + 1)
      | .response resp =>
        let result := decodeObject resp.Body
        match index result "result" with
        | .string j_status =>
          if j_status = "SUCCESS" then
            (.returned ("Job: " ++ jenkins_job ++ " Id: " ++ job_id ++ " Completed Successfully"),
              polls + 1)
          else if j_status = "FAILURE" ∨ j_status = "ABORTED" then
            (.fatal ("Job: " ++ jenkins_job ++ " Id: " ++ job_id ++ " " ++ j_status), polls + 1)
          else completeLoop req jenkins_job job_id rest (polls + 1)
        | _ => completeLoop req jenkins_job job_id rest (polls + 1)

/-- Go `wait_for_complete`. -/
def wait_for_complete (Atoi : String → Except String Int)
    (jenkins_user jenkins_token jenkins_uri jenkins_job job_id interval timeout : String)
    (rounds : List Round) : Outcome String × Nat :=
  match Atoi interval with
  | .error err => (.fatal err, 0)
  | .ok _ =>
    completeLoop
      (getRequest jenkins_user jenkins_token
        (jenkins_uri ++ "/job/" ++ jenkins_job ++ "/" ++ job_id ++ "/api/json"))
      jenkins_job job_id rounds 0

/-! ## `main`: the parameter mapping -/

/-- The loop of `main` over `os.Environ()` that fills `query`. -/
def collectParameters : List String → Values → Outcome Values
  | [], query => .returned query
  | e :: rest, query =>
    if startsWith e "PARAMETER_" then
      match Split e '=' with
      | [] => .crashed (.indexOutOfRange 0 0)
      | [_] => .crashed (.indexOutOfRange 1 1)
      | name :: value :: _ =>
        collectParameters rest (query.Add (trimStart name "PARAMETER_") value)
    else collectParameters rest query

/-- The mapping `main` passes to `postJob`: the loop run from `url.Values{}`. -/
def parameters (environ : List String) : Outcome Values :=
  collectParameters environ []

/-! ## Vocabulary of the properties -/

/-- Round in which the `tick` case runs and the poll is answered by `resp`. -/
def Round.polled (r : Round) (req : Request) (resp : Response) : Prop :=
  goSelect r = some .tick ∧ r.client req = .response resp

/-- A location that has the word queue as one of its path segments, the
segments being the pieces between slashes after scheme and host. -/
def hasQueueSegment (loc : String) : Bool :=
  ((Split loc '/').drop 3).contains "queue"

/-- A non-empty text of decimal digits. -/
def isNumeric (s : String) : Bool :=
  !s.data.isEmpty && s.data.all Char.isDigit

/-! ## Sample servers and rounds -/

/-- A server that gives every request the same response. -/
def answering (code : Int) (status : String) (header : List (String × List String))
    (body : Option GoValue) : Request → Reply :=
  fun _ => .response { StatusCode := code, Status := status, Header := header, Body := body }

/-- A server that accepts the build request and names `loc` as its location. -/
def created (loc : String) : Request → Reply :=
  answering 201 "201 Created" [("Location", [loc])] none

/-- A round before the deadline in which the tick fires and the poll is
answered with status 200 and the given body. -/
def tickRound (body : Option GoValue) : Round :=
  { limit := false, tick := true, pickTick := false, client := answering 200 "200 OK" [] body }

/-- A round in which deadline and tick are both ready and the runtime picks the
tick. -/
def lateRound (body : Option GoValue) : Round :=
  { limit := true, tick := true, pickTick := true, client := answering 200 "200 OK" [] body }

/-- A round in which only the deadline is ready. -/
def deadlineRound : Round :=
  { limit := true, tick := false, pickTick := false, client := fun _ => .failed "unreachable" }

/-- A round whose poll is answered by an error page that is not JSON. -/
def errorPageRound : Round :=
  { limit := false, tick := true, pickTick := false,
    client := answering 500 "500 Internal Server Error" [] none }

/-- Queue item body whose `executable` object has the given `number`. -/
def started (number : GoValue) : Option GoValue :=
  some (.map [("executable", .map [("number", number)])])

/-- Build body with the given `result`. -/
def building (result : GoValue) : Option GoValue :=
  some (.map [("result", result)])

/-! ## Lemmas: the pattern matcher -/

theorem isPrefixOf_eq_true_iff (p s : List Char) :
    p.isPrefixOf s = true ↔ ∃ t, s = p ++ t := by
  rw [List.isPrefixOf_iff_prefix]
  constructor
  · rintro ⟨t, ht⟩
    exact ⟨t, ht.symm⟩
  · rintro ⟨t, ht⟩
    exact ⟨t, ht.symm⟩

theorem queueThenDot_iff (s : List Char) :
    queueThenDot s = true ↔ ∃ c t, s = "queue".data ++ c :: t ∧ dotChar c = true := by
  unfold queueThenDot
  rw [Bool.and_eq_true, isPrefixOf_eq_true_iff]
  constructor
  · rintro ⟨⟨t, rfl⟩, h⟩
    have hd : ("queue".data ++ t).drop 5 = t := by
      rw [List.drop_append_of_le_length (by decide)]
      rfl
    rw [hd] at h
    cases t with
    | nil => simp at h
    | cons c t => exact ⟨c, t, rfl, h⟩
  · rintro ⟨c, t, rfl, h⟩
    refine ⟨⟨c :: t, rfl⟩, ?_⟩
    have hd : ("queue".data ++ c :: t).drop 5 = c :: t := by
      rw [List.drop_append_of_le_length (by decide)]
      rfl
    rw [hd]
    exact h

theorem dotsQueueDots_iff (s : List Char) :
    dotsQueueDots s = true ↔
      ∃ a c t, a ≠ [] ∧ (∀ x ∈ a, dotChar x = true) ∧ dotChar c = true ∧
        s = a ++ ("queue".data ++ c :: t) := by
  induction s with
  | nil =>
    constructor
    · intro h
      simp [dotsQueueDots] at h
    · rintro ⟨a, c, t, ha, -, -, hs⟩
      cases a with
      | nil => exact absurd rfl ha
      | cons x a => simp at hs
  | cons c0 cs ih =>
    unfold dotsQueueDots
    rw [Bool.and_eq_true, Bool.or_eq_true, ih, queueThenDot_iff]
    constructor
    · rintro ⟨h0, h | h⟩
      · obtain ⟨c, t, rfl, hc⟩ := h
        refine ⟨[c0], c, t, by simp, ?_, hc, rfl⟩
        intro x hx
        rw [List.mem_singleton] at hx
        rw [hx]
        exact h0
      · obtain ⟨a, c, t, -, hall, hc, rfl⟩ := h
        refine ⟨c0 :: a, c, t, by simp, ?_, hc, rfl⟩
        intro x hx
        rcases List.mem_cons.mp hx with rfl | hx
        · exact h0
        · exact hall x hx
    · rintro ⟨a, c, t, ha, hall, hc, hs⟩
      cases a with
      | nil => exact absurd rfl ha
      | cons x a =>
        rw [List.cons_append, List.cons.injEq] at hs
        obtain ⟨rfl, rfl⟩ := hs
        refine ⟨hall _ (List.mem_cons_self _ _), ?_⟩
        cases a with
        | nil => exact Or.inl ⟨c, t, rfl, hc⟩
        | cons y a =>
          exact Or.inr ⟨y :: a, c, t, by simp, fun z hz => hall z (List.mem_cons_of_mem _ hz), hc, rfl⟩

theorem findQueuePattern_iff (s : List Char) :
    findQueuePattern s = true ↔
      ∃ pre rest, s = pre ++ ("http".data ++ rest) ∧ dotsQueueDots rest = true := by
  induction s with
  | nil =>
    constructor
    · intro h
      simp [findQueuePattern] at h
    · rintro ⟨pre, rest, hs, -⟩
      cases pre with
      | nil =>
        have hlen := congrArg List.length hs
        simp [show "http".data = ['h', 't', 't', 'p'] from rfl] at hlen
      | cons x pre => simp at hs
  | cons c cs ih =>
    unfold findQueuePattern
    rw [Bool.or_eq_true, Bool.and_eq_true, ih, isPrefixOf_eq_true_iff]
    constructor
    · rintro (⟨⟨t, ht⟩, h⟩ | ⟨pre, rest, rfl, h⟩)
      · refine ⟨[], t, ht, ?_⟩
        have hcs : cs = "ttp".data ++ t := by
          have := congrArg List.tail ht
          simpa using this
        rw [hcs, List.drop_append_of_le_length (by decide)] at h
        exact h
      · exact ⟨c :: pre, rest, rfl, h⟩
    · rintro ⟨pre, rest, hs, h⟩
      cases pre with
      | nil =>
        left
        refine ⟨⟨rest, hs⟩, ?_⟩
        have hcs : cs = "ttp".data ++ rest := by
          have := congrArg List.tail hs
          simpa using this
        rw [hcs, List.drop_append_of_le_length (by decide)]
        exact h
      | cons x pre =>
        right
        rw [List.cons_append, List.cons.injEq] at hs
        exact ⟨pre, rest, hs.2, h⟩

theorem MatchString_iff (loc : String) : MatchString loc = true ↔ QueueShaped loc.data := by
  unfold MatchString QueueShaped
  rw [findQueuePattern_iff]
  constructor
  · rintro ⟨pre, rest, hs, h⟩
    obtain ⟨a, c, t, ha, hall, hc, rfl⟩ := (dotsQueueDots_iff rest).mp h
    refine ⟨pre, a, [c], t, hs, ha, by simp, hall, ?_⟩
    intro x hx
    rw [List.mem_singleton] at hx
    rw [hx]
    exact hc
  · rintro ⟨pre, a, b, post, hs, ha, hb, hall, hbll⟩
    cases b with
    | nil => exact absurd rfl hb
    | cons c b =>
      refine ⟨pre, a ++ ("queue".data ++ (c :: b ++ post)), hs, ?_⟩
      exact (dotsQueueDots_iff _).mpr
        ⟨a, c, b ++ post, ha, hall, hbll c (List.mem_cons_self _ _), rfl⟩


/-! ## Lemmas: the loops -/

theorem startLoop_tick_nil {req : Request} {r : Round} {resp : Response}
    (hr : r.polled req resp)
    (hnil : (index (decodeObject resp.Body) "executable").isNil = true)
    (rest : List Round) (polls : Nat) :
    startLoop req (r :: rest) polls = startLoop req rest (polls + 1) := by
  obtain ⟨hsel, hcl⟩ := hr
  cases hv : index (decodeObject resp.Body) "executable" <;>
    simp [hv, GoValue.isNil] at hnil
  simp only [startLoop, hsel, hcl, hv]

theorem startLoop_pending (req : Request) (pre : List Round)
    (hpre : ∀ x ∈ pre, ∃ rx, x.polled req rx ∧
      (index (decodeObject rx.Body) "executable").isNil = true)
    (tail : List Round) (polls : Nat) :
    startLoop req (pre ++ tail) polls = startLoop req tail (polls + pre.length) := by
  induction pre generalizing polls with
  | nil => rfl
  | cons x pre ih =>
    obtain ⟨rx, hx, hnil⟩ := hpre x (List.mem_cons_self _ _)
    rw [List.cons_append, startLoop_tick_nil hx hnil,
      ih (fun y hy => hpre y (List.mem_cons_of_mem _ hy)), List.length_cons]
    congr 1
    omega

theorem Float64.trunc_of_represents {f : Float64} {n : Int} (h : f.represents n) :
    f.trunc = n := by
  unfold Float64.represents at h
  unfold Float64.trunc
  split
  · rename_i hexp
    rw [if_pos hexp] at h
    exact h
  · rename_i hexp
    rw [if_neg hexp] at h
    rw [h]
    exact Int.mul_tdiv_cancel _ (by positivity)

theorem goInt_of_represents {f : Float64} {n : Int} (h : f.represents n)
    (hlo : -2 ^ 63 ≤ n) (hhi : n < 2 ^ 63) : goInt f = n := by
  unfold goInt
  rw [Float64.trunc_of_represents h, if_pos ⟨hlo, hhi⟩]

theorem completeLoop_tick_running {req : Request} {r : Round} {resp : Response}
    (hr : r.polled req resp)
    (hrun : ∀ s, index (decodeObject resp.Body) "result" = .string s →
      s ≠ "SUCCESS" ∧ s ≠ "FAILURE" ∧ s ≠ "ABORTED")
    (jenkins_job job_id : String) (rest : List Round) (polls : Nat) :
    completeLoop req jenkins_job job_id (r :: rest) polls =
      completeLoop req jenkins_job job_id rest (polls + 1) := by
  obtain ⟨hsel, hcl⟩ := hr
  cases hv : index (decodeObject resp.Body) "result" with
  | string s =>
    obtain ⟨h1, h2, h3⟩ := hrun s hv
    simp only [completeLoop, hsel, hcl, hv, if_neg h1, h2, h3, or_self, if_false]
  | _ => simp only [completeLoop, hsel, hcl, hv]

theorem completeLoop_running (req : Request) (jenkins_job job_id : String) (pre : List Round)
    (hpre : ∀ x ∈ pre, ∃ rx, x.polled req rx ∧
      ∀ s, index (decodeObject rx.Body) "result" = .string s →
        s ≠ "SUCCESS" ∧ s ≠ "FAILURE" ∧ s ≠ "ABORTED")
    (tail : List Round) (polls : Nat) :
    completeLoop req jenkins_job job_id (pre ++ tail) polls =
      completeLoop req jenkins_job job_id tail (polls + pre.length) := by
  induction pre generalizing polls with
  | nil => rfl
  | cons x pre ih =>
    obtain ⟨rx, hx, hrun⟩ := hpre x (List.mem_cons_self _ _)
    rw [List.cons_append, completeLoop_tick_running hx hrun,
      ih (fun y hy => hpre y (List.mem_cons_of_mem _ hy)), List.length_cons]
    congr 1
    omega

theorem goSelect_limit {r : Round} (hl : r.limit = true)
    (ht : r.tick = false ∨ r.pickTick = false) : goSelect r = some .limit := by
  unfold goSelect
  rcases ht with ht | ht
  · rw [hl, ht]
  · rw [hl, ht]
    cases r.tick <;> rfl


/-! ## Submission: `postJob` -/

/-- C1: `postJob` issues its POST request at `base/job/name/build` when the parameter
mapping is empty and at `base/job/name/buildWithParameters` when it is not: whatever the
server does with other requests, an error `err` it gives to a POST at that URL is the
error `postJob` dies with, and two servers that agree on the requests at that URL give
the same outcome, so no other URL is contacted. -/
theorem postJob_target (clientA clientB : Request → Reply)
    (jenkins_user jenkins_token jenkins_uri jenkins_job : String) (query_string : Values)
    (err : String) :
    (query_string = [] →
      (postRequest jenkins_user jenkins_token jenkins_uri jenkins_job query_string).url =
          jenkins_uri ++ "/job/" ++ jenkins_job ++ "/build" ∧
      ((∀ req : Request, req.method = "POST" →
          req.url = jenkins_uri ++ "/job/" ++ jenkins_job ++ "/build" →
          clientA req = .failed err) →
        postJob clientA jenkins_user jenkins_token jenkins_uri jenkins_job query_string =
          .fatal err)) ∧
    (query_string ≠ [] →
      (postRequest jenkins_user jenkins_token jenkins_uri jenkins_job query_string).url =
          jenkins_uri ++ "/job/" ++ jenkins_job ++ "/buildWithParameters" ∧
      ((∀ req : Request, req.method = "POST" →
          req.url = jenkins_uri ++ "/job/" ++ jenkins_job ++ "/buildWithParameters" →
          clientA req = .failed err) →
        postJob clientA jenkins_user jenkins_token jenkins_uri jenkins_job query_string =
          .fatal err)) ∧
    ((∀ req : Request,
        req.url = postURL jenkins_uri jenkins_job query_string → clientA req = clientB req) →
      postJob clientA jenkins_user jenkins_token jenkins_uri jenkins_job query_string =
        postJob clientB jenkins_user jenkins_token jenkins_uri jenkins_job query_string) := by
  refine ⟨?_, ?_, ?_⟩
  · intro h
    subst h
    refine ⟨rfl, fun hfail => ?_⟩
    unfold postJob
    rw [hfail _ rfl rfl]
  · intro h
    have hurl : (postRequest jenkins_user jenkins_token jenkins_uri jenkins_job query_string).url =
        jenkins_uri ++ "/job/" ++ jenkins_job ++ "/buildWithParameters" := by
      cases query_string with
      | nil => exact absurd rfl h
      | cons kv rest => simp [postRequest, postURL]
    refine ⟨hurl, fun hfail => ?_⟩
    unfold postJob
    rw [hfail _ rfl hurl]
  · intro h
    unfold postJob
    rw [h _ rfl]

/-- C1 at the job `deploy` on `http://ci`, without parameters and with one parameter: a
server that refuses only the POST at the stated URL, and would answer 201 Created to any
other request, makes `postJob` die with that refusal. -/
theorem postJob_target_witness :
    ((postRequest "ci-user" "secret" "http://ci" "deploy" []).url = "http://ci/job/deploy/build" ∧
      postJob (fun req => if req.method = "POST" ∧ req.url = "http://ci/job/deploy/build" then
          .failed "connection refused" else created "http://ci/queue/item/12/" req)
        "ci-user" "secret" "http://ci" "deploy" [] = .fatal "connection refused") ∧
    ((postRequest "ci-user" "secret" "http://ci" "deploy" [("ENV_FOO", ["bar"])]).url =
        "http://ci/job/deploy/buildWithParameters" ∧
      postJob (fun req =>
          if req.method = "POST" ∧ req.url = "http://ci/job/deploy/buildWithParameters" then
            .failed "connection refused" else created "http://ci/queue/item/12/" req)
        "ci-user" "secret" "http://ci" "deploy" [("ENV_FOO", ["bar"])] =
          .fatal "connection refused") ∧
    postJob (created "http://ci/queue/item/12/") "ci-user" "secret" "http://ci" "deploy" [] =
      postJob (fun req => if req.url = "http://ci/job/deploy/build" then
          created "http://ci/queue/item/12/" req else .failed "connection refused")
        "ci-user" "secret" "http://ci" "deploy" [] :=
  ⟨(fun h => ⟨h.1, h.2 (by
        intro req hm hu
        have hm2 : req.method = "POST" := hm
        have hu2 : req.url = "http://ci/job/deploy/build" := hu
        simp only [hm2, hu2, and_self, if_true])⟩)
      ((postJob_target
        (fun req => if req.method = "POST" ∧ req.url = "http://ci/job/deploy/build" then
          .failed "connection refused" else created "http://ci/queue/item/12/" req)
        (created "") "ci-user" "secret" "http://ci" "deploy" [] "connection refused").1 rfl),
    (fun h => ⟨h.1, h.2 (by
        intro req hm hu
        have hm2 : req.method = "POST" := hm
        have hu2 : req.url = "http://ci/job/deploy/buildWithParameters" := hu
        simp only [hm2, hu2, and_self, if_true])⟩)
      ((postJob_target
        (fun req =>
          if req.method = "POST" ∧ req.url = "http://ci/job/deploy/buildWithParameters" then
            .failed "connection refused" else created "http://ci/queue/item/12/" req)
        (created "") "ci-user" "secret" "http://ci" "deploy" [("ENV_FOO", ["bar"])]
        "connection refused").2.1 (by decide)),
    (postJob_target (created "http://ci/queue/item/12/")
      (fun req => if req.url = "http://ci/job/deploy/build" then
          created "http://ci/queue/item/12/" req else .failed "connection refused")
      "ci-user" "secret" "http://ci" "deploy" [] "").2.2
      (by
        intro req hreq
        have hurl : req.url = "http://ci/job/deploy/build" := hreq
        simp only [hurl, if_true])⟩

/-- C2: a response whose status code is not 201 makes `postJob` die with the message
`Request returned:` followed by the status line, whatever its headers are; nothing is
returned. -/
theorem postJob_rejects_other_status (client : Request → Reply)
    (jenkins_user jenkins_token jenkins_uri jenkins_job : String) (query_string : Values)
    (resp : Response)
    (hreply : client (postRequest jenkins_user jenkins_token jenkins_uri jenkins_job query_string) =
      .response resp)
    (hstatus : resp.StatusCode ≠ 201) :
    postJob client jenkins_user jenkins_token jenkins_uri jenkins_job query_string =
      .fatal ("Request returned: " ++ resp.Status) := by
  unfold postJob
  rw [hreply]
  simp only [if_pos hstatus]

/-- C2 at a 404 response that carries a well-formed queue location. -/
theorem postJob_rejects_other_status_witness :
    MatchString "http://ci/queue/item/12/" = true ∧
    postJob (answering 404 "404 Not Found" [("Location", ["http://ci/queue/item/12/"])] none)
        "ci-user" "secret" "http://ci" "deploy" [] =
      .fatal "Request returned: 404 Not Found" :=
  ⟨by decide,
    postJob_rejects_other_status
      (answering 404 "404 Not Found" [("Location", ["http://ci/queue/item/12/"])] none)
      "ci-user" "secret" "http://ci" "deploy" []
      { StatusCode := 404, Status := "404 Not Found",
        Header := [("Location", ["http://ci/queue/item/12/"])], Body := none }
      rfl (by decide)⟩

/-- C3, refuted as stated: the location `http://jenkins/enqueued/item/12/` has no path
segment equal to queue, yet a 201 response carrying it is accepted and `postJob`
returns. -/
theorem postJob_accepts_queue_inside_a_segment :
    hasQueueSegment "http://jenkins/enqueued/item/12/" = false ∧
    postJob (created "http://jenkins/enqueued/item/12/") "ci-user" "secret" "http://jenkins"
        "deploy" [] =
      .returned ("http://jenkins/enqueued/item/12/", "12") := by
  decide

/-- C3, amended: a 201 response whose first Location value contains no occurrence of
`http`, then one or more characters, then `queue`, then one or more characters (no
newline among those characters) makes `postJob` die with the message
`Request did not return a valid queue location`; nothing is returned. -/
theorem postJob_rejects_unshaped_location (client : Request → Reply)
    (jenkins_user jenkins_token jenkins_uri jenkins_job : String) (query_string : Values)
    (resp : Response) (loc : String) (more : List String)
    (hreply : client (postRequest jenkins_user jenkins_token jenkins_uri jenkins_job query_string) =
      .response resp)
    (hstatus : resp.StatusCode = 201)
    (hloc : resp.Header.lookup "Location" = some (loc :: more))
    (hshape : ¬ QueueShaped loc.data) :
    postJob client jenkins_user jenkins_token jenkins_uri jenkins_job query_string =
      .fatal "Request did not return a valid queue location" := by
  have hmatch : MatchString loc = false := by
    cases hm : MatchString loc
    · rfl
    · exact absurd ((MatchString_iff loc).mp hm) hshape
  unfold postJob
  rw [hreply]
  simp only [hstatus, hloc, hmatch, ne_eq, not_true_eq_false, if_false, Bool.not_false, if_true]

/-- C3, amended, at a 201 response whose location is the job page. -/
theorem postJob_rejects_unshaped_location_witness :
    postJob (created "http://ci/job/deploy/") "ci-user" "secret" "http://ci" "deploy" [] =
      .fatal "Request did not return a valid queue location" :=
  postJob_rejects_unshaped_location (created "http://ci/job/deploy/") "ci-user" "secret"
    "http://ci" "deploy" []
    { StatusCode := 201, Status := "201 Created",
      Header := [("Location", ["http://ci/job/deploy/"])], Body := none }
    "http://ci/job/deploy/" [] rfl rfl rfl
    (fun h => absurd ((MatchString_iff "http://ci/job/deploy/").mpr h) (by decide))

/-- C9, evaluated: a 201 response with location `http://host/queue/x` passes the check
and `postJob` then panics on the index 5 of a 5-element slice; with the location
`http://ci.example.com/jenkins/queue/item/12/` it returns the queue id `item`, which is
not numeric. -/
theorem postJob_queue_id_unchecked :
    MatchString "http://host/queue/x" = true ∧
    postJob (created "http://host/queue/x") "ci-user" "secret" "http://host" "deploy" [] =
      .crashed (.indexOutOfRange 5 5) ∧
    MatchString "http://ci.example.com/jenkins/queue/item/12/" = true ∧
    postJob (created "http://ci.example.com/jenkins/queue/item/12/") "ci-user" "secret"
        "http://ci.example.com/jenkins" "deploy" [] =
      .returned ("http://ci.example.com/jenkins/queue/item/12/", "item") ∧
    isNumeric "item" = false := by
  decide

/-! ## Queue phase: `wait_for_start` -/

/-- C4, refuted as stated: the build number `2 ^ 70` is a float64 value, and on a response
carrying it `wait_for_start` returns the text of `-2 ^ 63`, not the decimal text of the
number. -/
theorem wait_for_start_build_number_overflows :
    (Float64.mk 1 70).represents (2 ^ 70) ∧
    wait_for_start (fun _ => .ok 2) "ci-user" "secret" "http://ci/queue/item/12/" "12" "2" "600"
        [tickRound (started (.float64 (Float64.mk 1 70)))] =
      (.returned "-9223372036854775808", 1) ∧
    toString ((2 : Int) ^ 70) = "1180591620717411303424" := by
  decide

/-- C4, amended: when the interval parses, the first polls are answered without an
`executable` value, the next poll is answered with `executable.number` equal to an
integer `n` of the 64-bit int range, and every one of these rounds runs the tick case,
`wait_for_start` returns the decimal text of `n` after exactly that many polls,
whatever rounds follow. -/
theorem wait_for_start_returns_build_number
    (Atoi : String → Except String Int)
    (jenkins_user jenkins_token location queue_id interval timeout : String) (i : Int)
    (pre : List Round) (r : Round) (rest : List Round)
    (resp : Response) (executable : List (String × GoValue)) (f : Float64) (n : Int)
    (hi : Atoi interval = .ok i)
    (hpre : ∀ x ∈ pre, ∃ rx,
      x.polled (getRequest jenkins_user jenkins_token (location ++ "/api/json")) rx ∧
      (index (decodeObject rx.Body) "executable").isNil = true)
    (hr : r.polled (getRequest jenkins_user jenkins_token (location ++ "/api/json")) resp)
    (hexe : index (decodeObject resp.Body) "executable" = .map executable)
    (hnum : index executable "number" = .float64 f)
    (hf : f.represents n) (hlo : -2 ^ 63 ≤ n) (hhi : n < 2 ^ 63) :
    wait_for_start Atoi jenkins_user jenkins_token location queue_id interval timeout
        (pre ++ r :: rest) =
      (.returned (toString n), pre.length + 1) := by
  unfold wait_for_start
  rw [hi]
  simp only
  rw [startLoop_pending _ pre hpre]
  obtain ⟨hsel, hcl⟩ := hr
  simp only [startLoop, hsel, hcl, hexe, hnum, goInt_of_represents hf hlo hhi, Nat.zero_add]

/-- C4, amended, at the sequence no executable, null executable, number 42: the build
id 42 after exactly 3 polls. -/
theorem wait_for_start_returns_build_number_witness :
    wait_for_start (fun _ => .ok 2) "ci-user" "secret" "http://ci/queue/item/12/" "12" "2" "600"
        ([tickRound (some (.map [])), tickRound (some (.map [("executable", .nil)]))] ++
          tickRound (started (.float64 (Float64.mk 42 0))) :: [deadlineRound]) =
      (.returned "42", 3) :=
  wait_for_start_returns_build_number (fun _ => .ok 2) "ci-user" "secret"
    "http://ci/queue/item/12/" "12" "2" "600" 2
    [tickRound (some (.map [])), tickRound (some (.map [("executable", .nil)]))]
    (tickRound (started (.float64 (Float64.mk 42 0)))) [deadlineRound]
    { StatusCode := 200, Status := "200 OK", Header := [],
      Body := started (.float64 (Float64.mk 42 0)) }
    [("number", .float64 (Float64.mk 42 0))] (Float64.mk 42 0) 42 rfl
    (by
      intro x hx
      simp only [List.mem_cons, List.mem_singleton, List.not_mem_nil, or_false] at hx
      rcases hx with rfl | rfl
      · exact ⟨Response.mk 200 "200 OK" [] (some (.map [])), ⟨rfl, rfl⟩, rfl⟩
      · exact ⟨Response.mk 200 "200 OK" [] (some (.map [("executable", .nil)])), ⟨rfl, rfl⟩, rfl⟩)
    ⟨rfl, rfl⟩ rfl rfl (by decide) (by decide) (by decide)

/-- C6, evaluated: a queue item whose `executable.number` is the string 42, and one
whose `executable` is the number 5, make `wait_for_start` panic on a type assertion
at the first poll instead of dying with the start error. -/
theorem wait_for_start_crashes_on_malformed_executable :
    wait_for_start (fun _ => .ok 2) "ci-user" "secret" "http://ci/queue/item/12/" "12" "2" "600"
        [tickRound (started (.string "42"))] =
      (.crashed .typeAssertion, 1) ∧
    wait_for_start (fun _ => .ok 2) "ci-user" "secret" "http://ci/queue/item/12/" "12" "2" "600"
        [tickRound (some (.map [("executable", .float64 (Float64.mk 5 0))]))] =
      (.crashed .typeAssertion, 1) := by
  decide

/-! ## Build phase: `wait_for_complete` -/

/-- C5: when the interval parses, the first polls are answered with a `result` that is
none of the strings SUCCESS, FAILURE, ABORTED (absent, null or any other value), the next
poll is answered with one of the three, and every one of these rounds runs the tick case,
`wait_for_complete` stops after exactly that many polls, whatever rounds follow: it
returns for SUCCESS and dies with job name, build id and the observed FAILURE or ABORTED
otherwise. -/
theorem wait_for_complete_first_terminal
    (Atoi : String → Except String Int)
    (jenkins_user jenkins_token jenkins_uri jenkins_job job_id interval timeout : String)
    (i : Int) (pre : List Round) (r : Round) (rest : List Round)
    (resp : Response) (status : String)
    (hi : Atoi interval = .ok i)
    (hpre : ∀ x ∈ pre, ∃ rx,
      x.polled (getRequest jenkins_user jenkins_token
        (jenkins_uri ++ "/job/" ++ jenkins_job ++ "/" ++ job_id ++ "/api/json")) rx ∧
      ∀ s, index (decodeObject rx.Body) "result" = .string s →
        s ≠ "SUCCESS" ∧ s ≠ "FAILURE" ∧ s ≠ "ABORTED")
    (hr : r.polled (getRequest jenkins_user jenkins_token
        (jenkins_uri ++ "/job/" ++ jenkins_job ++ "/" ++ job_id ++ "/api/json")) resp)
    (hres : index (decodeObject resp.Body) "result" = .string status)
    (hterm : status = "SUCCESS" ∨ status = "FAILURE" ∨ status = "ABORTED") :
    wait_for_complete Atoi jenkins_user jenkins_token jenkins_uri jenkins_job job_id
        interval timeout (pre ++ r :: rest) =
      (if status = "SUCCESS" then
          .returned ("Job: " ++ jenkins_job ++ " Id: " ++ job_id ++ " Completed Successfully")
        else .fatal ("Job: " ++ jenkins_job ++ " Id: " ++ job_id ++ " " ++ status),
        pre.length + 1) := by
  unfold wait_for_complete
  rw [hi]
  simp only
  rw [completeLoop_running _ _ _ pre hpre]
  obtain ⟨hsel, hcl⟩ := hr
  simp only [completeLoop, hsel, hcl, hres, Nat.zero_add]
  rcases hterm with rfl | rfl | rfl
  · simp
  · simp
  · simp

/-- C5 at the sequence null, null, FAILURE: the failure after exactly 3 polls. -/
theorem wait_for_complete_first_terminal_witness :
    wait_for_complete (fun _ => .ok 5) "ci-user" "secret" "http://ci" "deploy" "42" "5" "600"
        ([tickRound (building .nil), tickRound (building .nil)] ++
          tickRound (building (.string "FAILURE")) :: [tickRound (building (.string "SUCCESS"))]) =
      (.fatal "Job: deploy Id: 42 FAILURE", 3) :=
  wait_for_complete_first_terminal (fun _ => .ok 5) "ci-user" "secret" "http://ci" "deploy" "42"
    "5" "600" 5 [tickRound (building .nil), tickRound (building .nil)]
    (tickRound (building (.string "FAILURE"))) [tickRound (building (.string "SUCCESS"))]
    { StatusCode := 200, Status := "200 OK", Header := [], Body := building (.string "FAILURE") }
    "FAILURE" rfl
    (by
      intro x hx
      refine ⟨{ StatusCode := 200, Status := "200 OK", Header := [], Body := building .nil }, ?_, ?_⟩
      · simp only [List.mem_cons, List.mem_singleton, List.not_mem_nil, or_false, or_self] at hx
        subst hx
        exact ⟨rfl, rfl⟩
      · intro s hs
        exact absurd hs (by intro h; cases h))
    ⟨rfl, rfl⟩ rfl (Or.inr (Or.inl rfl))

/-! ## Both phases: deadline and retries -/

/-- C7, refuted as stated: in a round where the deadline has elapsed and a tick is
ready too, the runtime may pick the tick; the poll of that round then yields a build id
in `wait_for_start` and a success in `wait_for_complete`. -/
theorem late_tick_poll_is_served :
    (lateRound none).limit = true ∧
    wait_for_start (fun _ => .ok 2) "ci-user" "secret" "http://ci/queue/item/12/" "12" "2" "600"
        [lateRound (started (.float64 (Float64.mk 42 0)))] =
      (.returned "42", 1) ∧
    wait_for_complete (fun _ => .ok 5) "ci-user" "secret" "http://ci" "deploy" "42" "5" "600"
        [lateRound (building (.string "SUCCESS"))] =
      (.returned "Job: deploy Id: 42 Completed Successfully", 1) := by
  decide

/-- C7, amended: at every loop iteration where the deadline has elapsed and either no tick
is ready or the runtime picks the deadline case, the loop ends with the timeout failure
that names the phase, and no further poll is made. -/
theorem deadline_case_times_out (req : Request) (jenkins_job job_id : String)
    (r : Round) (rest : List Round) (polls : Nat)
    (hlimit : r.limit = true) (hpick : r.tick = false ∨ r.pickTick = false) :
    startLoop req (r :: rest) polls =
      (.fatal "Timeout elapsed while waiting for job to start", polls) ∧
    completeLoop req jenkins_job job_id (r :: rest) polls =
      (.fatal "Timeout elapsed while waiting for job to finish", polls) := by
  have hsel := goSelect_limit hlimit hpick
  constructor
  · simp only [startLoop, hsel]
  · simp only [completeLoop, hsel]

/-- C7, amended, after two polls, with a round in which only the deadline is ready. -/
theorem deadline_case_times_out_witness :
    startLoop (getRequest "ci-user" "secret" "http://ci/queue/item/12/api/json")
        (deadlineRound :: [tickRound (started (.float64 (Float64.mk 42 0)))]) 2 =
      (.fatal "Timeout elapsed while waiting for job to start", 2) ∧
    completeLoop (getRequest "ci-user" "secret" "http://ci/job/deploy/42/api/json") "deploy" "42"
        (deadlineRound :: [tickRound (started (.float64 (Float64.mk 42 0)))]) 2 =
      (.fatal "Timeout elapsed while waiting for job to finish", 2) :=
  deadline_case_times_out _ "deploy" "42" deadlineRound
    [tickRound (started (.float64 (Float64.mk 42 0)))] 2 rfl (Or.inl rfl)

/-- C8, refuted as stated: a poll answered by an error page that is not JSON is
followed by another poll in both phases, and the run goes on to a build id and to a
success. -/
theorem undecodable_poll_is_retried :
    wait_for_start (fun _ => .ok 2) "ci-user" "secret" "http://ci/queue/item/12/" "12" "2" "600"
        [errorPageRound, tickRound (started (.float64 (Float64.mk 42 0)))] =
      (.returned "42", 2) ∧
    wait_for_complete (fun _ => .ok 5) "ci-user" "secret" "http://ci" "deploy" "42" "5" "600"
        [errorPageRound, tickRound (building (.string "SUCCESS"))] =
      (.returned "Job: deploy Id: 42 Completed Successfully", 2) := by
  decide

/-- C8, amended: the poll responses after which a watcher polls again are those in which
the decoded map has no `executable` value (queue phase), respectively no `result` equal
to SUCCESS, FAILURE or ABORTED (build phase); a body that does not decode to an object
counts among them, as decoding errors and the HTTP status are not looked at. Every
other poll response ends the phase at that poll, whatever rounds follow. -/
theorem polling_goes_on_without_verdict (req : Request) (jenkins_job job_id : String)
    (r : Round) (resp : Response) (rest : List Round) (polls : Nat)
    (hr : r.polled req resp) :
    ((index (decodeObject resp.Body) "executable").isNil = true →
      startLoop req (r :: rest) polls = startLoop req rest (polls + 1)) ∧
    ((index (decodeObject resp.Body) "executable").isNil = false →
      ∃ o : Outcome String, o ≠ .waiting ∧
        ∀ later, startLoop req (r :: later) polls = (o, polls + 1)) ∧
    ((∀ s, index (decodeObject resp.Body) "result" = .string s →
        s ≠ "SUCCESS" ∧ s ≠ "FAILURE" ∧ s ≠ "ABORTED") →
      completeLoop req jenkins_job job_id (r :: rest) polls =
        completeLoop req jenkins_job job_id rest (polls + 1)) ∧
    (∀ s, index (decodeObject resp.Body) "result" = .string s →
      (s = "SUCCESS" ∨ s = "FAILURE" ∨ s = "ABORTED") →
      ∃ o : Outcome String, o ≠ .waiting ∧
        ∀ later, completeLoop req jenkins_job job_id (r :: later) polls = (o, polls + 1)) := by
  refine ⟨fun hnil => startLoop_tick_nil hr hnil rest polls, ?_,
    fun hrun => completeLoop_tick_running hr hrun jenkins_job job_id rest polls, ?_⟩
  · intro hnil
    obtain ⟨hsel, hcl⟩ := hr
    cases hv : index (decodeObject resp.Body) "executable" with
    | nil => simp [hv, GoValue.isNil] at hnil
    | map executable =>
      cases hn : index executable "number" with
      | nil =>
        exact ⟨.fatal "Job started but job id could not be found", by simp,
          fun later => by simp only [startLoop, hsel, hcl, hv, hn]⟩
      | float64 f =>
        exact ⟨.returned (toString (goInt f)), by simp,
          fun later => by simp only [startLoop, hsel, hcl, hv, hn]⟩
      | bool b =>
        exact ⟨.crashed .typeAssertion, by simp,
          fun later => by simp only [startLoop, hsel, hcl, hv, hn]⟩
      | string t =>
        exact ⟨.crashed .typeAssertion, by simp,
          fun later => by simp only [startLoop, hsel, hcl, hv, hn]⟩
      | slice xs =>
        exact ⟨.crashed .typeAssertion, by simp,
          fun later => by simp only [startLoop, hsel, hcl, hv, hn]⟩
      | map kvs =>
        exact ⟨.crashed .typeAssertion, by simp,
          fun later => by simp only [startLoop, hsel, hcl, hv, hn]⟩
    | bool b =>
      exact ⟨.crashed .typeAssertion, by simp,
        fun later => by simp only [startLoop, hsel, hcl, hv]⟩
    | float64 f =>
      exact ⟨.crashed .typeAssertion, by simp,
        fun later => by simp only [startLoop, hsel, hcl, hv]⟩
    | string t =>
      exact ⟨.crashed .typeAssertion, by simp,
        fun later => by simp only [startLoop, hsel, hcl, hv]⟩
    | slice xs =>
      exact ⟨.crashed .typeAssertion, by simp,
        fun later => by simp only [startLoop, hsel, hcl, hv]⟩
  · intro s hs hterm
    obtain ⟨hsel, hcl⟩ := hr
    by_cases hsucc : s = "SUCCESS"
    · exact ⟨.returned ("Job: " ++ jenkins_job ++ " Id: " ++ job_id ++ " Completed Successfully"),
        by simp, fun later => by simp only [completeLoop, hsel, hcl, hs, hsucc, if_true]⟩
    · have hfail : s = "FAILURE" ∨ s = "ABORTED" := hterm.resolve_left hsucc
      exact ⟨.fatal ("Job: " ++ jenkins_job ++ " Id: " ++ job_id ++ " " ++ s), by simp,
        fun later => by simp only [completeLoop, hsel, hcl, hs, if_neg hsucc, if_pos hfail]⟩

/-- C8, amended, at the error page that is not JSON: both loops go on to the next round
with one more poll counted. -/
theorem polling_goes_on_without_verdict_witness :
    startLoop (getRequest "ci-user" "secret" "http://ci/queue/item/12/api/json")
        (errorPageRound :: [deadlineRound]) 0 =
      startLoop (getRequest "ci-user" "secret" "http://ci/queue/item/12/api/json")
        [deadlineRound] 1 ∧
    completeLoop (getRequest "ci-user" "secret" "http://ci/job/deploy/42/api/json") "deploy" "42"
        (errorPageRound :: [deadlineRound]) 0 =
      completeLoop (getRequest "ci-user" "secret" "http://ci/job/deploy/42/api/json") "deploy"
        "42" [deadlineRound] 1 :=
  ⟨(polling_goes_on_without_verdict
      (getRequest "ci-user" "secret" "http://ci/queue/item/12/api/json") "deploy" "42"
      errorPageRound (Response.mk 500 "500 Internal Server Error" [] none) [deadlineRound] 0
      ⟨rfl, rfl⟩).1 rfl,
    (polling_goes_on_without_verdict
      (getRequest "ci-user" "secret" "http://ci/job/deploy/42/api/json") "deploy" "42"
      errorPageRound (Response.mk 500 "500 Internal Server Error" [] none) [deadlineRound] 0
      ⟨rfl, rfl⟩).2.2.1 (fun s hs => absurd hs (by intro h; cases h))⟩

/-! ## `main`: parameters from the environment -/

/-- C10, evaluated: for the environment entry `PARAMETER_FOO=a=b` the mapping holds `a`
under `FOO`, not `a=b`: the value is cut at the second equals sign. Entries that do not
start with `PARAMETER_` add nothing. -/
theorem parameters_cut_value_at_second_equals :
    parameters ["HOME=/root", "PARAMETER_FOO=a=b"] = .returned [("FOO", ["a"])] := by
  decide

end JenkinsJob
